import Mathlib

/-!
Verification of the Okta posture collector (`internal/collector` and
`internal/okta`).  The Go source is shallowly embedded: pure functions become
Lean functions, the streaming collection loops become folds over the lists of
entities delivered by the client, and each fallible remote fetch is an
`Option` input (`none` models the fetch returning an error).  Go `int` is
modelled as `Int` (no overflow is relevant to any statement here) and Go
truncated integer division as `Int.tdiv`.
-/

namespace Okta

/-!  ## String helpers

Models of the Go standard-library string functions the collector uses
(`strings.ToUpper`, `strings.ToLower`, `strings.Split`, `strings.TrimSpace`,
`strings.TrimPrefix`, `strings.TrimSuffix`, `strings.Contains`,
`strconv.ParseInt`).  They are implemented by structural recursion on
character lists so every definition evaluates by kernel reduction.  -/

/-- Model of Go `strings.ToUpper` (ASCII-faithful). -/
def strToUpper (s : String) : String := String.mk (s.data.map Char.toUpper)

/-- Model of Go `strings.ToLower` (ASCII-faithful). -/
def strToLower (s : String) : String := String.mk (s.data.map Char.toLower)

/-- Split a character list at every occurrence of a separator character,
keeping empty segments, as Go `strings.Split` does for a one-character
separator.  The result is always non-empty. -/
def splitChar (sep : Char) : List Char → List (List Char)
  | [] => [[]]
  | c :: rest =>
    match splitChar sep rest with
    | [] => if c = sep then [[], []] else [[c]]
    | h :: t => if c = sep then [] :: h :: t else (c :: h) :: t

/-- Model of Go `strings.Split` with a one-character separator. -/
def strSplit (s : String) (sep : Char) : List String :=
  (splitChar sep s.data).map String.mk

/-- Drop leading and trailing whitespace from a character list. -/
def trimSpaceList (cs : List Char) : List Char :=
  ((cs.dropWhile Char.isWhitespace).reverse.dropWhile Char.isWhitespace).reverse

/-- Model of Go `strings.TrimSpace`. -/
def strTrimSpace (s : String) : String := String.mk (trimSpaceList s.data)

/-- Model of Go `strings.TrimPrefix`: remove the prefix when present,
otherwise return the string unchanged. -/
def trimPrefixStr (s pre : String) : String :=
  if pre.data.isPrefixOf s.data then String.mk (s.data.drop pre.data.length) else s

/-- Model of Go `strings.TrimSuffix`: remove the suffix when present,
otherwise return the string unchanged. -/
def trimSuffixStr (s suf : String) : String :=
  if suf.data.isSuffixOf s.data then
    String.mk (s.data.take (s.data.length - suf.data.length))
  else s

/-- Split a character list around the first occurrence of a pattern,
returning the parts before and after it, or `none` when the pattern does not
occur. -/
def subFirst (pat : List Char) : List Char → Option (List Char × List Char)
  | [] => if pat.isEmpty then some ([], []) else none
  | c :: rest =>
    if pat.isPrefixOf (c :: rest) then some ([], (c :: rest).drop pat.length)
    else
      match subFirst pat rest with
      | some (b, a) => some (c :: b, a)
      | none => none

/-- Model of Go `strings.Contains`. -/
def strContains (s pat : String) : Bool := (subFirst pat.data s.data).isSome

/-- Value of a list of decimal digit characters. -/
def natOfDigits (cs : List Char) : Nat := cs.foldl (fun n c => n * 10 + (c.toNat - 48)) 0

/-- Whether a character list is a non-empty run of decimal digits. -/
def allDigits (cs : List Char) : Bool := !cs.isEmpty && cs.all Char.isDigit

/-- Model of Go `strconv.ParseInt(s, 10, 64)`: an optional sign followed by at
least one decimal digit (int64 overflow is not modelled; no statement here
depends on it). -/
def parseIntDec (s : String) : Option Int :=
  match s.data with
  | '+' :: rest => if allDigits rest then some ((natOfDigits rest : Nat) : Int) else none
  | '-' :: rest => if allDigits rest then some (-((natOfDigits rest : Nat) : Int)) else none
  | cs => if allDigits cs then some ((natOfDigits cs : Nat) : Int) else none

/-!  ## Constants (`internal/collector/constants.go`)  -/

def StatusActive : String := "ACTIVE"

def StatusDeprovisioned : String := "DEPROVISIONED"

def StatusPasswordExpired : String := "PASSWORD_EXPIRED"

def StatusLockedOut : String := "LOCKED_OUT"

def PolicyTypeSignOn : String := "OKTA_SIGN_ON"

def PolicyTypeMFAEnroll : String := "MFA_ENROLL"

def SignOnModeSAML20 : String := "SAML_2_0"

def SignOnModeSAML11 : String := "SAML_1_1"

def SignOnModeOIDC : String := "OPENID_CONNECT"

def SignOnModeWSFederation : String := "WS_FEDERATION"

def FeaturePushNewUsers : String := "PUSH_NEW_USERS"

def FeatureImportNewUsers : String := "IMPORT_NEW_USERS"

def FeaturePushUserDeactivation : String := "PUSH_USER_DEACTIVATION"

def FactorTypeWebAuthn : String := "webauthn"

def FactorTypeU2F : String := "u2f"

def MFAActionChallenge : String := "CHALLENGE"

def MFAActionLogin : String := "LOGIN"

def MaxPercentage : Int := 100

def InactiveDaysThreshold : Int := 90

/-!  ## Shared numeric helper (`collector.go`, `percent`)  -/

/-- `percent` from `collector.go`: percentage of `count` over `total`,
returning 0 when `total` is 0.  Go's `/` on `int` is truncated division,
`Int.tdiv`. -/
def percent (count total : Int) : Int :=
  if total = 0 then 0 else Int.tdiv (count * MaxPercentage) total

theorem percent_eq_ediv (c t : Int) (hc : 0 ≤ c) (ht : 0 < t) :
    percent c t = (c * 100) / t := by
  unfold percent MaxPercentage
  rw [if_neg (by omega)]
  exact Int.tdiv_eq_ediv (mul_nonneg hc (by norm_num)) (le_of_lt ht)

theorem percent_nonneg (c t : Int) (hc : 0 ≤ c) (ht : 0 ≤ t) : 0 ≤ percent c t := by
  unfold percent
  split
  · exact le_refl 0
  · exact Int.tdiv_nonneg (mul_nonneg hc (by decide)) ht

theorem percent_le_100 (c t : Int) (hc : 0 ≤ c) (hct : c ≤ t) : percent c t ≤ 100 := by
  rcases eq_or_lt_of_le (hc.trans hct) with h | h
  · unfold percent; rw [if_pos h.symm]; omega
  · rw [percent_eq_ediv c t hc h]
    calc (c * 100) / t ≤ (t * 100) / t :=
          Int.ediv_le_ediv h (mul_le_mul_of_nonneg_right hct (by norm_num))
      _ = 100 := Int.mul_ediv_cancel_left 100 (by omega)

/-- Claim C1: the shared rounding function `percent` returns 0 when the total
is 0, stays within [0,100] whenever `0 ≤ c ≤ t`, sends a zero count to 0 and a
full count to 100, agrees with floor division on the non-negative inputs it is
used on, and in particular maps (1,3) to 33 and (2,3) to 66. -/
theorem claim_C1_percent_properties :
    (∀ c : Int, percent c 0 = 0) ∧
    (∀ c t : Int, 0 ≤ c → c ≤ t → 0 ≤ percent c t ∧ percent c t ≤ 100) ∧
    (∀ t : Int, percent 0 t = 0) ∧
    (∀ t : Int, 0 < t → percent t t = 100) ∧
    (∀ c t : Int, 0 ≤ c → 0 < t → percent c t = Int.fdiv (c * 100) t) ∧
    percent 1 3 = 33 ∧ percent 2 3 = 66 := by
  refine ⟨?_, ?_, ?_, ?_, ?_, by decide, by decide⟩
  · intro c; simp [percent]
  · intro c t hc hct
    exact ⟨percent_nonneg c t hc (hc.trans hct), percent_le_100 c t hc hct⟩
  · intro t
    unfold percent
    split
    · rfl
    · simp [Int.zero_tdiv]
  · intro t ht
    rw [percent_eq_ediv t t (le_of_lt ht) ht]
    exact Int.mul_ediv_cancel_left 100 (by omega)
  · intro c t hc ht
    rw [percent_eq_ediv c t hc ht, Int.fdiv_eq_ediv _ (le_of_lt ht)]

/-- Witness for claim C1 at a concrete input. -/
theorem claim_C1_percent_properties_witness :
    0 ≤ percent 2 5 ∧ percent 2 5 ≤ 100 :=
  claim_C1_percent_properties.2.1 2 5 (by decide) (by decide)

/-!  ## Time model

Model of Go `time.Time` at the precision the collector uses: an instant on an
integer tick line.  `time.Time.IsZero` holds exactly for the zero value,
modelled as tick 0, and `Before` is the strict order on ticks.  -/

structure GoTime where
  ticks : Int
deriving DecidableEq

/-- Model of `time.Time.IsZero`. -/
def GoTime.isZero (t : GoTime) : Bool := t.ticks = 0

/-- Model of `time.Time.Before`. -/
def GoTime.before (a b : GoTime) : Bool := a.ticks < b.ticks

/-!  ## Remote entities (`internal/okta/types.go`), restricted to the fields
the collector reads.  -/

structure Factor where
  factorType : String
  status : String
deriving DecidableEq

structure User where
  id : String
  status : String
  lastLogin : GoTime
deriving DecidableEq

structure Application where
  id : String
  signOnMode : String
  features : List String
deriving DecidableEq

structure SignonSession where
  maxSessionIdleMinutes : Int
  maxSessionLifetimeMinutes : Int
deriving DecidableEq

structure SignonActions where
  requireFactor : Bool
  session : SignonSession
deriving DecidableEq

structure EnrollActions where
  self : String
deriving DecidableEq

structure PolicyRuleActions where
  signon : Option SignonActions
  enroll : Option EnrollActions
deriving DecidableEq

structure PolicyRule where
  id : String
  status : String
  actions : PolicyRuleActions
deriving DecidableEq

structure Policy where
  id : String
  status : String
deriving DecidableEq

/-!  ## Client model

The `okta.OktaClient` interface, embedded as the responses one collection run
observes: each fetch result is an `Option` (`none` models the call returning
an error), keyed the way the interface is keyed (user factors by user id,
policies by policy type, policy rules by policy id).  `FetchUsers` and
`FetchApplications` stream pages through a callback; the fold over the
concatenated page contents is modelled as a fold over one list.  -/

structure ClientModel where
  usersFetch : Option (List User)
  factorsFetch : String → Option (List Factor)
  appsFetch : Option (List Application)
  policiesFetch : String → Option (List Policy)
  policyRulesFetch : String → Option (List PolicyRule)

/-!  ## Collector configuration and output record
(`internal/collector/constants.go`).  The schema-version and collected-at
stamps are real-time/process concerns outside the embedded fragment.  -/

structure Config where
  orgDomain : String
  clientID : String
  privateKey : String
  apiToken : String
deriving DecidableEq

structure Posture where
  mfaCoverage : Int
  mfaPhishingResistant : Int
  ssoCoverage : Int
deriving DecidableEq

structure UserMetrics where
  passwordExpired : Int
  lockedOut : Int
  inactive : Int
deriving DecidableEq

structure AppMetrics where
  provisioningEnabled : Int
  deprovisioningEnabled : Int
deriving DecidableEq

structure PolicyConfig where
  policyCount : Int
  mfaRequiredAll : Bool
  mfaRequiredAny : Bool
  sessionLifetimeMinMinutes : Option Int
  sessionLifetimeMaxMinutes : Option Int
  idleTimeoutMinMinutes : Option Int
  idleTimeoutMaxMinutes : Option Int
deriving DecidableEq

structure OrgPosture where
  orgDomain : String
  posture : Posture
  users : UserMetrics
  apps : AppMetrics
  policy : PolicyConfig
deriving DecidableEq

/-!  ## User metrics (`collector.go`, `collectUserMetrics` and helpers)  -/

structure userMetricsCollector where
  totalUsers : Int := 0
  mfaEnrolledCount : Int := 0
  mfaPhishingResistant : Int := 0
  passwordExpired : Int := 0
  lockedOut : Int := 0
  inactive : Int := 0
  mfaEnrolled : Int := 0
deriving DecidableEq

/-- The factor loop inside `processUserFactors`: scan the factor list,
accumulating the `hasMFA` and `hasPhishingResistant` flags. -/
def factorScan : List Factor → Bool → Bool → Bool × Bool
  | [], hasMFA, hasPR => (hasMFA, hasPR)
  | factor :: rest, hasMFA, hasPR =>
    if factor.status ≠ StatusActive then factorScan rest hasMFA hasPR
    else
      let factorType := strToLower factor.factorType
      factorScan rest true
        (if factorType = FactorTypeWebAuthn || factorType = FactorTypeU2F then true else hasPR)

/-- `processUserFactors` from `collector.go`: a factor-fetch error is
swallowed (no contribution from this user). -/
def processUserFactors (client : ClientModel) (userID : String)
    (metrics : userMetricsCollector) : userMetricsCollector :=
  match client.factorsFetch userID with
  | none => metrics
  | some factors =>
    let flags := factorScan factors false false
    let metrics :=
      if flags.1 then { metrics with mfaEnrolledCount := metrics.mfaEnrolledCount + 1 }
      else metrics
    if flags.2 then { metrics with mfaPhishingResistant := metrics.mfaPhishingResistant + 1 }
    else metrics

/-- `processUser` from `collector.go`. -/
def processUser (client : ClientModel) (user : User) (inactiveThreshold : GoTime)
    (metrics : userMetricsCollector) : userMetricsCollector :=
  if user.status = StatusDeprovisioned then metrics
  else
    let metrics := { metrics with totalUsers := metrics.totalUsers + 1 }
    let metrics :=
      if user.lastLogin.isZero || user.lastLogin.before inactiveThreshold then
        { metrics with inactive := metrics.inactive + 1 }
      else metrics
    let metrics :=
      if user.status = StatusPasswordExpired then
        { metrics with passwordExpired := metrics.passwordExpired + 1 }
      else if user.status = StatusLockedOut then
        { metrics with lockedOut := metrics.lockedOut + 1 }
      else metrics
    processUserFactors client user.id metrics

/-- `collectUserMetrics` from `collector.go`: fold every delivered user into
the accumulator, then convert counts to percentages.  In the source the
inactivity threshold is `time.Now().AddDate(0, 0, -InactiveDaysThreshold)`
(90 days before run start); real time is outside the embedding, so the
threshold instant is an input. -/
def collectUserMetrics (client : ClientModel) (inactiveThreshold : GoTime) :
    Option userMetricsCollector :=
  match client.usersFetch with
  | none => none
  | some users =>
    let metrics := users.foldl (fun m u => processUser client u inactiveThreshold m) {}
    some { metrics with
      mfaEnrolled := percent metrics.mfaEnrolledCount metrics.totalUsers
      mfaPhishingResistant := percent metrics.mfaPhishingResistant metrics.totalUsers
      passwordExpired := percent metrics.passwordExpired metrics.totalUsers
      lockedOut := percent metrics.lockedOut metrics.totalUsers
      inactive := percent metrics.inactive metrics.totalUsers }

/-!  ## Application metrics (`collector.go`, `collectAppMetrics` and helpers)  -/

structure appMetricsCollector where
  totalApps : Int := 0
  ssoApps : Int := 0
  provisioningEnabled : Int := 0
  deprovisioningEnabled : Int := 0
  ssoCoverage : Int := 0
deriving DecidableEq

/-- `isSSO` from `collector.go`. -/
def isSSO (mode : String) : Bool :=
  mode = SignOnModeSAML20 || mode = SignOnModeSAML11 || mode = SignOnModeOIDC ||
    mode = SignOnModeWSFederation

/-- `checkProvisioningFeatures` from `collector.go`. -/
def checkProvisioningFeatures (features : List String) : Bool × Bool :=
  features.foldl
    (fun acc feature =>
      if feature = FeaturePushNewUsers || feature = FeatureImportNewUsers then (true, acc.2)
      else if feature = FeaturePushUserDeactivation then (acc.1, true)
      else acc)
    (false, false)

/-- `processApp` from `collector.go`. -/
def processApp (app : Application) (metrics : appMetricsCollector) : appMetricsCollector :=
  let metrics := { metrics with totalApps := metrics.totalApps + 1 }
  let metrics :=
    if isSSO app.signOnMode then { metrics with ssoApps := metrics.ssoApps + 1 } else metrics
  let flags := checkProvisioningFeatures app.features
  let metrics :=
    if flags.1 then { metrics with provisioningEnabled := metrics.provisioningEnabled + 1 }
    else metrics
  if flags.2 then { metrics with deprovisioningEnabled := metrics.deprovisioningEnabled + 1 }
  else metrics

/-- `collectAppMetrics` from `collector.go`. -/
def collectAppMetrics (client : ClientModel) : Option appMetricsCollector :=
  match client.appsFetch with
  | none => none
  | some apps =>
    let metrics := apps.foldl (fun m a => processApp a m) {}
    some { metrics with
      ssoCoverage := percent metrics.ssoApps metrics.totalApps
      provisioningEnabled := percent metrics.provisioningEnabled metrics.totalApps
      deprovisioningEnabled := percent metrics.deprovisioningEnabled metrics.totalApps }

/-!  ## Policy metrics (`collector.go`, `collectPolicyMetrics` and helpers)  -/

structure policyMetricsCollector where
  policyCount : Int := 0
  mfaRequiredCount : Int := 0
  sessionLifetimeMin : Option Int := none
  sessionLifetimeMax : Option Int := none
  idleTimeoutMin : Option Int := none
  idleTimeoutMax : Option Int := none
deriving DecidableEq

/-- `updateMinMax` from `collector.go`: non-positive values are ignored;
otherwise the value lowers the min and raises the max, initialising unset
pointers. -/
def updateMinMax (mn mx : Option Int) (value : Int) : Option Int × Option Int :=
  if value ≤ 0 then (mn, mx)
  else
    ( match mn with
      | none => some value
      | some m => if value < m then some value else some m,
      match mx with
      | none => some value
      | some m => if value > m then some value else some m )

/-- `processSignOnRules` from `collector.go`: only the first active rule with
a sign-on action is used; the returned flag says whether one was found. -/
def processSignOnRules : List PolicyRule → policyMetricsCollector →
    policyMetricsCollector × Bool
  | [], metrics => (metrics, false)
  | rule :: rest, metrics =>
    match rule.actions.signon with
    | none => processSignOnRules rest metrics
    | some signon =>
      if rule.status ≠ StatusActive then processSignOnRules rest metrics
      else
        let sl := updateMinMax metrics.sessionLifetimeMin metrics.sessionLifetimeMax
          signon.session.maxSessionLifetimeMinutes
        let it := updateMinMax metrics.idleTimeoutMin metrics.idleTimeoutMax
          signon.session.maxSessionIdleMinutes
        let metrics := { metrics with
          sessionLifetimeMin := sl.1, sessionLifetimeMax := sl.2,
          idleTimeoutMin := it.1, idleTimeoutMax := it.2 }
        let metrics :=
          if signon.requireFactor then
            { metrics with mfaRequiredCount := metrics.mfaRequiredCount + 1 }
          else metrics
        (metrics, true)

/-- The body of the policy loop in `collectSignOnPolicies`: an inactive
policy is skipped, a failed per-policy rule fetch skips that policy
(`continue`), and the policy count grows only when `processSignOnRules`
reported a qualifying rule. -/
def signOnPolicyStep (client : ClientModel) (m : policyMetricsCollector)
    (policy : Policy) : policyMetricsCollector :=
  if policy.status ≠ StatusActive then m
  else
    match client.policyRulesFetch policy.id with
    | none => m
    | some rules =>
      let r := processSignOnRules rules m
      if r.2 then { r.1 with policyCount := r.1.policyCount + 1 } else r.1

/-- `collectSignOnPolicies` from `collector.go`: a failed policy-list fetch is
swallowed (`return` with no error). -/
def collectSignOnPolicies (client : ClientModel) (metrics : policyMetricsCollector) :
    policyMetricsCollector :=
  match client.policiesFetch PolicyTypeSignOn with
  | none => metrics
  | some policies => policies.foldl (signOnPolicyStep client) metrics

/-- `processMFAEnrollRules` from `collector.go`: only the first active rule
with an enroll action is inspected; it bumps the shared MFA-required tally
when its (upper-cased) self setting is CHALLENGE or LOGIN. -/
def processMFAEnrollRules : List PolicyRule → policyMetricsCollector → policyMetricsCollector
  | [], metrics => metrics
  | rule :: rest, metrics =>
    match rule.actions.enroll with
    | none => processMFAEnrollRules rest metrics
    | some enroll =>
      if rule.status ≠ StatusActive then processMFAEnrollRules rest metrics
      else
        let enrollAction := strToUpper enroll.self
        if enrollAction = MFAActionChallenge || enrollAction = MFAActionLogin then
          { metrics with mfaRequiredCount := metrics.mfaRequiredCount + 1 }
        else metrics

/-- The body of the policy loop in `collectMFAEnrollPolicies`: inactive
policies and policies whose rule fetch failed are skipped. -/
def mfaEnrollPolicyStep (client : ClientModel) (m : policyMetricsCollector)
    (policy : Policy) : policyMetricsCollector :=
  if policy.status ≠ StatusActive then m
  else
    match client.policyRulesFetch policy.id with
    | none => m
    | some rules => processMFAEnrollRules rules m

/-- `collectMFAEnrollPolicies` from `collector.go`: a failed policy-list fetch
is swallowed (`return` with no error). -/
def collectMFAEnrollPolicies (client : ClientModel) (metrics : policyMetricsCollector) :
    policyMetricsCollector :=
  match client.policiesFetch PolicyTypeMFAEnroll with
  | none => metrics
  | some policies => policies.foldl (mfaEnrollPolicyStep client) metrics

/-- `collectPolicyMetrics` from `collector.go`: the sign-on family first, then
the enrollment family, into the one shared accumulator; it never returns an
error. -/
def collectPolicyMetrics (client : ClientModel) : policyMetricsCollector :=
  collectMFAEnrollPolicies client (collectSignOnPolicies client {})

/-!  ## Collect (`collector.go`, `Collect`)  -/

/-- `Collect` from `collector.go`: `none` models returning an error.  The
derived policy booleans are computed exactly as in the source. -/
def Collect (config : Config) (client : ClientModel) (inactiveThreshold : GoTime) :
    Option OrgPosture :=
  if config.orgDomain = "" then none
  else
    match collectUserMetrics client inactiveThreshold with
    | none => none
    | some userMetrics =>
      match collectAppMetrics client with
      | none => none
      | some appMetrics =>
        let policyMetrics := collectPolicyMetrics client
        some {
          orgDomain := config.orgDomain
          posture := {
            mfaCoverage := userMetrics.mfaEnrolled
            mfaPhishingResistant := userMetrics.mfaPhishingResistant
            ssoCoverage := appMetrics.ssoCoverage }
          users := {
            passwordExpired := userMetrics.passwordExpired
            lockedOut := userMetrics.lockedOut
            inactive := userMetrics.inactive }
          apps := {
            provisioningEnabled := appMetrics.provisioningEnabled
            deprovisioningEnabled := appMetrics.deprovisioningEnabled }
          policy := {
            policyCount := policyMetrics.policyCount
            mfaRequiredAll := decide (policyMetrics.policyCount > 0) &&
              decide (policyMetrics.mfaRequiredCount ≥ policyMetrics.policyCount)
            mfaRequiredAny := decide (policyMetrics.mfaRequiredCount > 0)
            sessionLifetimeMinMinutes := policyMetrics.sessionLifetimeMin
            sessionLifetimeMaxMinutes := policyMetrics.sessionLifetimeMax
            idleTimeoutMinMinutes := policyMetrics.idleTimeoutMin
            idleTimeoutMaxMinutes := policyMetrics.idleTimeoutMax } }

/-!  ## Construction (`collector.go`, `New`)  -/

inductive AuthType where
  | bearer
  | ssws
deriving DecidableEq

inductive NewError where
  | oauthClientFailed
  | authRequired
deriving DecidableEq

/-- `New` from `collector.go`.  `oauthOK` abstracts whether
`okta.NewClientWithOAuth` succeeds (key parsing and the token-exchange round
trip, effects outside this embedding); the branch structure is the source's:
OAuth credentials win when both are present, otherwise a non-empty API token
selects the legacy client, otherwise construction fails with the
authentication-required error. -/
def New (config : Config) (oauthOK : Bool) : Except NewError AuthType :=
  if config.clientID ≠ "" ∧ config.privateKey ≠ "" then
    if oauthOK then .ok .bearer else .error .oauthClientFailed
  else if config.apiToken ≠ "" then .ok .ssws
  else .error .authRequired

/-- An all-empty successful client environment, used to instantiate universal
statements at a concrete input. -/
def emptyClient : ClientModel where
  usersFetch := some []
  factorsFetch := fun _ => some []
  appsFetch := some []
  policiesFetch := fun _ => some []
  policyRulesFetch := fun _ => some []

/-!  ## Claim C5  -/

/-- Claim C5: construction activates exactly one authentication mode.  `New`
fails with the configuration error exactly when neither the OAuth credential
pair nor an API token is supplied; the OAuth (bearer) client is produced
exactly when both OAuth credentials are present (and client creation
succeeds); the legacy token client is produced exactly when the OAuth pair is
incomplete and a token is present — so both modes are never active at once. -/
theorem claim_C5_exactly_one_auth_mode (config : Config) (oauthOK : Bool) :
    (New config oauthOK = .error .authRequired ↔
      ((config.clientID = "" ∨ config.privateKey = "") ∧ config.apiToken = "")) ∧
    (New config oauthOK = .ok .bearer ↔
      (config.clientID ≠ "" ∧ config.privateKey ≠ "" ∧ oauthOK = true)) ∧
    (New config oauthOK = .ok .ssws ↔
      ((config.clientID = "" ∨ config.privateKey = "") ∧ config.apiToken ≠ "")) := by
  unfold New
  split_ifs with h1 h2 <;> cases oauthOK <;> simp_all <;> tauto

/-!  ## Claim C6  -/

theorem processUserFactors_inactive (client : ClientModel) (userID : String)
    (metrics : userMetricsCollector) :
    (processUserFactors client userID metrics).inactive = metrics.inactive := by
  unfold processUserFactors
  cases client.factorsFetch userID with
  | none => rfl
  | some factors =>
    dsimp only
    split <;> split <;> rfl

/-- Claim C6: a non-deprovisioned user is classified inactive exactly when
the last-login is absent (the zero time) or strictly before the threshold
instant; in particular a user whose last-login equals the threshold instant
exactly is classified active. -/
theorem claim_C6_inactive_boundary :
    (∀ (client : ClientModel) (user : User) (threshold : GoTime)
        (metrics : userMetricsCollector), user.status ≠ StatusDeprovisioned →
      (processUser client user threshold metrics).inactive =
        metrics.inactive +
          (if user.lastLogin.isZero || user.lastLogin.before threshold then 1 else 0)) ∧
    (∀ (client : ClientModel) (user : User) (threshold : GoTime)
        (metrics : userMetricsCollector), user.status ≠ StatusDeprovisioned →
      user.lastLogin.isZero = false → user.lastLogin.ticks = threshold.ticks →
      (processUser client user threshold metrics).inactive = metrics.inactive) := by
  have key : ∀ (client : ClientModel) (user : User) (threshold : GoTime)
      (metrics : userMetricsCollector), user.status ≠ StatusDeprovisioned →
      (processUser client user threshold metrics).inactive =
        metrics.inactive +
          (if user.lastLogin.isZero || user.lastLogin.before threshold then 1 else 0) := by
    intro client user threshold metrics h
    unfold processUser
    rw [if_neg h]
    dsimp only
    rw [processUserFactors_inactive]
    split <;> split <;> (try split) <;> simp
  refine ⟨key, ?_⟩
  intro client user threshold metrics h hz he
  rw [key client user threshold metrics h]
  have : (user.lastLogin.isZero || user.lastLogin.before threshold) = false := by
    rw [hz]
    simp [GoTime.before, he]
  rw [this]
  simp

/-- Witness for claim C6: a user whose last login sits exactly on the
threshold instant is counted active. -/
theorem claim_C6_inactive_boundary_witness :
    (processUser emptyClient { id := "u", status := "ACTIVE", lastLogin := ⟨5⟩ } ⟨5⟩
      ({} : userMetricsCollector)).inactive = ({} : userMetricsCollector).inactive := by
  exact claim_C6_inactive_boundary.2 emptyClient
    { id := "u", status := "ACTIVE", lastLogin := ⟨5⟩ } ⟨5⟩ ({} : userMetricsCollector)
    (by decide) (by decide) rfl

/-!  ## Claim C7  -/

theorem foldl_processUser_filter (client : ClientModel) (threshold : GoTime)
    (users : List User) (m : userMetricsCollector) :
    users.foldl (fun m u => processUser client u threshold m) m =
      (users.filter fun u => decide (u.status ≠ StatusDeprovisioned)).foldl
        (fun m u => processUser client u threshold m) m := by
  induction users generalizing m with
  | nil => rfl
  | cons u us ih =>
    by_cases h : u.status = StatusDeprovisioned
    · have hu : processUser client u threshold m = m := by
        unfold processUser
        rw [if_pos h]
      simp [List.filter_cons, h, hu, ih]
    · simp [List.filter_cons, h, ih]

theorem processUser_factors_only (c1 c2 : ClientModel)
    (hf : c1.factorsFetch = c2.factorsFetch) (user : User) (threshold : GoTime)
    (m : userMetricsCollector) :
    processUser c1 user threshold m = processUser c2 user threshold m := by
  unfold processUser processUserFactors
  rw [hf]

theorem foldl_processUser_client (c1 c2 : ClientModel)
    (hf : c1.factorsFetch = c2.factorsFetch) (threshold : GoTime) (users : List User)
    (m : userMetricsCollector) :
    users.foldl (fun m u => processUser c1 u threshold m) m =
      users.foldl (fun m u => processUser c2 u threshold m) m := by
  induction users generalizing m with
  | nil => rfl
  | cons u us ih =>
    simp only [List.foldl_cons, processUser_factors_only c1 c2 hf, ih]

/-- Claim C7: deprovisioned users contribute to no per-user metric — the user
metrics computed over any delivered list coincide with the metrics over the
same list with the deprovisioned users removed. -/
theorem claim_C7_deprovisioned_excluded (client : ClientModel) (users : List User)
    (threshold : GoTime) :
    collectUserMetrics { client with usersFetch := some users } threshold =
      collectUserMetrics
        { client with
          usersFetch := some (users.filter fun u => decide (u.status ≠ StatusDeprovisioned)) }
        threshold := by
  unfold collectUserMetrics
  dsimp only
  rw [foldl_processUser_filter, foldl_processUser_client
    { client with usersFetch := some users }
    { client with
      usersFetch := some (users.filter fun u => decide (u.status ≠ StatusDeprovisioned)) }
    rfl]

/-!  ## Claim C3  -/

/-- A client whose sign-on policy-family list fetch fails while every other
fetch succeeds. -/
def signOnListFailClient : ClientModel where
  usersFetch := some []
  factorsFetch := fun _ => some []
  appsFetch := some []
  policiesFetch := fun ty => if ty = PolicyTypeSignOn then none else some []
  policyRulesFetch := fun _ => some []

/-- Counterexample to claim C3 as stated: when the sign-on policy family's
list call fails (and all other fetches succeed), `Collect` still returns a
Posture Summary rather than a hard run failure — `collectSignOnPolicies`
swallows the `FetchPolicies` error. -/
theorem claim_C3_counterexample :
    Collect { orgDomain := "test.okta.com", clientID := "", privateKey := "", apiToken := "t" }
      signOnListFailClient ⟨0⟩ ≠ none := by
  decide

theorem collectUserMetrics_usersFail (client : ClientModel) (threshold : GoTime)
    (h : client.usersFetch = none) : collectUserMetrics client threshold = none := by
  unfold collectUserMetrics
  rw [h]

theorem collectAppMetrics_appsFail (client : ClientModel)
    (h : client.appsFetch = none) : collectAppMetrics client = none := by
  unfold collectAppMetrics
  rw [h]

/-- Claim C3 (amended): a failure of the users list fetch or of the
applications list fetch is a hard failure of the whole run (`Collect` returns
an error and no Posture Summary); a failure of either policy family's list
call is, however, swallowed with zero contribution from that family; and
per-entity sub-fetch failures — an individual user's factors, an individual
policy's rules — are swallowed with zero contribution from that entity. -/
theorem claim_C3_fetch_failure_propagation :
    (∀ (config : Config) (client : ClientModel) (threshold : GoTime),
      client.usersFetch = none → Collect config client threshold = none) ∧
    (∀ (config : Config) (client : ClientModel) (threshold : GoTime),
      client.appsFetch = none → Collect config client threshold = none) ∧
    (∀ (client : ClientModel) (metrics : policyMetricsCollector),
      client.policiesFetch PolicyTypeSignOn = none →
      collectSignOnPolicies client metrics = metrics) ∧
    (∀ (client : ClientModel) (metrics : policyMetricsCollector),
      client.policiesFetch PolicyTypeMFAEnroll = none →
      collectMFAEnrollPolicies client metrics = metrics) ∧
    (∀ (client : ClientModel) (userID : String) (metrics : userMetricsCollector),
      client.factorsFetch userID = none → processUserFactors client userID metrics = metrics) ∧
    (∀ (client : ClientModel) (metrics : policyMetricsCollector) (policy : Policy),
      client.policyRulesFetch policy.id = none →
      signOnPolicyStep client metrics policy = metrics) ∧
    (∀ (client : ClientModel) (metrics : policyMetricsCollector) (policy : Policy),
      client.policyRulesFetch policy.id = none →
      mfaEnrollPolicyStep client metrics policy = metrics) := by
  refine ⟨?_, ?_, ?_, ?_, ?_, ?_, ?_⟩
  · intro config client threshold h
    unfold Collect
    rw [collectUserMetrics_usersFail client threshold h]
    split <;> rfl
  · intro config client threshold h
    unfold Collect
    rw [collectAppMetrics_appsFail client h]
    split
    · rfl
    · cases collectUserMetrics client threshold <;> rfl
  · intro client metrics h
    unfold collectSignOnPolicies
    rw [h]
  · intro client metrics h
    unfold collectMFAEnrollPolicies
    rw [h]
  · intro client userID metrics h
    unfold processUserFactors
    rw [h]
  · intro client metrics policy h
    unfold signOnPolicyStep
    split
    · rfl
    · rw [h]
  · intro client metrics policy h
    unfold mfaEnrollPolicyStep
    split
    · rfl
    · rw [h]

/-- Witness for the amended claim C3: a failed users list fetch aborts the
run. -/
theorem claim_C3_fetch_failure_propagation_witness :
    Collect { orgDomain := "test.okta.com", clientID := "", privateKey := "", apiToken := "t" }
      { emptyClient with usersFetch := none } ⟨0⟩ = none :=
  claim_C3_fetch_failure_propagation.1
    { orgDomain := "test.okta.com", clientID := "", privateKey := "", apiToken := "t" }
    { emptyClient with usersFetch := none } ⟨0⟩ rfl

/-!  ## Declarative characterisation of the policy aggregation

These definitions restate, in direct terms, which policies and rules the
source's first-qualifying-rule loops end up using; the lemmas below prove the
loops equal to them.  -/

/-- A rule the sign-on loop can use: active with a sign-on action. -/
def isQualSignOnRule (rule : PolicyRule) : Bool :=
  decide (rule.status = StatusActive) && rule.actions.signon.isSome

/-- Whether the first usable sign-on rule of a rule list requires a factor. -/
def firstSignOnRequireFactor (rules : List PolicyRule) : Bool :=
  match rules.find? isQualSignOnRule with
  | some rule =>
    match rule.actions.signon with
    | some signon => signon.requireFactor
    | none => false
  | none => false

/-- An active sign-on policy whose rule list (successfully fetched) contains
at least one active rule with a sign-on action. -/
def signOnPolicyQualifies (client : ClientModel) (policy : Policy) : Bool :=
  decide (policy.status = StatusActive) &&
    (match client.policyRulesFetch policy.id with
     | none => false
     | some rules => rules.any isQualSignOnRule)

/-- An active sign-on policy whose first usable rule has requireFactor set. -/
def signOnPolicyRequiresFactor (client : ClientModel) (policy : Policy) : Bool :=
  decide (policy.status = StatusActive) &&
    (match client.policyRulesFetch policy.id with
     | none => false
     | some rules => firstSignOnRequireFactor rules)

/-- A rule the enrollment loop can use: active with an enroll action. -/
def isQualEnrollRule (rule : PolicyRule) : Bool :=
  decide (rule.status = StatusActive) && rule.actions.enroll.isSome

/-- Whether the first usable enroll rule of a rule list has a self setting of
CHALLENGE or LOGIN (case-insensitively). -/
def firstEnrollRequiresMFA (rules : List PolicyRule) : Bool :=
  match rules.find? isQualEnrollRule with
  | some rule =>
    match rule.actions.enroll with
    | some enroll =>
      decide (strToUpper enroll.self = MFAActionChallenge) ||
        decide (strToUpper enroll.self = MFAActionLogin)
    | none => false
  | none => false

/-- An active enrollment policy whose first usable rule requires MFA. -/
def enrollPolicyRequiresMFA (client : ClientModel) (policy : Policy) : Bool :=
  decide (policy.status = StatusActive) &&
    (match client.policyRulesFetch policy.id with
     | none => false
     | some rules => firstEnrollRequiresMFA rules)

theorem firstSignOnRequireFactor_cons_neg (rule : PolicyRule) (rest : List PolicyRule)
    (hq : isQualSignOnRule rule = false) :
    firstSignOnRequireFactor (rule :: rest) = firstSignOnRequireFactor rest := by
  unfold firstSignOnRequireFactor
  rw [List.find?_cons_of_neg _ (by simp [hq])]

theorem firstSignOnRequireFactor_cons_pos (rule : PolicyRule) (rest : List PolicyRule)
    (hq : isQualSignOnRule rule = true) :
    firstSignOnRequireFactor (rule :: rest) =
      (match rule.actions.signon with
       | some signon => signon.requireFactor
       | none => false) := by
  unfold firstSignOnRequireFactor
  rw [List.find?_cons_of_pos _ hq]

theorem processSignOnRules_spec (rules : List PolicyRule) (m : policyMetricsCollector) :
    (processSignOnRules rules m).2 = rules.any isQualSignOnRule ∧
    (processSignOnRules rules m).1.policyCount = m.policyCount ∧
    (processSignOnRules rules m).1.mfaRequiredCount =
      m.mfaRequiredCount + (if firstSignOnRequireFactor rules then 1 else 0) := by
  induction rules generalizing m with
  | nil =>
    refine ⟨rfl, rfl, ?_⟩
    simp [processSignOnRules, firstSignOnRequireFactor]
  | cons rule rest ih =>
    cases hs : rule.actions.signon with
    | none =>
      have hq : isQualSignOnRule rule = false := by
        simp [isQualSignOnRule, hs]
      have hstep : processSignOnRules (rule :: rest) m = processSignOnRules rest m := by
        conv_lhs => unfold processSignOnRules
        rw [hs]
      rw [hstep, List.any_cons, hq, firstSignOnRequireFactor_cons_neg rule rest hq]
      simpa using ih m
    | some signon =>
      by_cases hst : rule.status = StatusActive
      · have hq : isQualSignOnRule rule = true := by
          simp [isQualSignOnRule, hs, hst]
        rw [List.any_cons, hq, firstSignOnRequireFactor_cons_pos rule rest hq, hs]
        unfold processSignOnRules
        rw [hs]
        dsimp only
        rw [if_neg (not_not_intro hst)]
        refine ⟨by simp, ?_, ?_⟩ <;> dsimp only <;> split <;> simp
      · have hq : isQualSignOnRule rule = false := by
          simp [isQualSignOnRule, hst]
        have hstep : processSignOnRules (rule :: rest) m = processSignOnRules rest m := by
          conv_lhs => unfold processSignOnRules
          rw [hs]
          dsimp only
          rw [if_pos hst]
        rw [hstep, List.any_cons, hq, firstSignOnRequireFactor_cons_neg rule rest hq]
        simpa using ih m

theorem signOnPolicyStep_spec (client : ClientModel) (m : policyMetricsCollector)
    (policy : Policy) :
    (signOnPolicyStep client m policy).policyCount =
      m.policyCount + (if signOnPolicyQualifies client policy then 1 else 0) ∧
    (signOnPolicyStep client m policy).mfaRequiredCount =
      m.mfaRequiredCount + (if signOnPolicyRequiresFactor client policy then 1 else 0) := by
  unfold signOnPolicyStep signOnPolicyQualifies signOnPolicyRequiresFactor
  by_cases hp : policy.status = StatusActive
  · rw [if_neg (not_not_intro hp)]
    cases hr : client.policyRulesFetch policy.id with
    | none => simp [hp]
    | some rules =>
      dsimp only
      have h1 := (processSignOnRules_spec rules m).1
      have h2 := (processSignOnRules_spec rules m).2.1
      have h3 := (processSignOnRules_spec rules m).2.2
      constructor
      · by_cases hA : (processSignOnRules rules m).2 = true
        · have ha : rules.any isQualSignOnRule = true := by
            rw [← h1]
            exact hA
          rw [if_pos hA]
          simp [h2, hp, ha]
        · have ha : rules.any isQualSignOnRule = false := by
            rw [← h1]
            simpa using hA
          rw [if_neg hA]
          simp [h2, hp, ha]
      · by_cases hA : (processSignOnRules rules m).2 = true
        · rw [if_pos hA]
          simp [h3, hp]
        · rw [if_neg hA]
          simp [h3, hp]
  · rw [if_pos hp]
    simp [hp]

theorem foldl_signOnPolicyStep_spec (client : ClientModel) (policies : List Policy)
    (m : policyMetricsCollector) :
    (policies.foldl (signOnPolicyStep client) m).policyCount =
      m.policyCount + ((policies.countP (signOnPolicyQualifies client) : Nat) : Int) ∧
    (policies.foldl (signOnPolicyStep client) m).mfaRequiredCount =
      m.mfaRequiredCount + ((policies.countP (signOnPolicyRequiresFactor client) : Nat) : Int) := by
  induction policies generalizing m with
  | nil => simp
  | cons p ps ih =>
    rw [List.foldl_cons, List.countP_cons, List.countP_cons]
    have h1 := (signOnPolicyStep_spec client m p).1
    have h2 := (signOnPolicyStep_spec client m p).2
    have i1 := (ih (signOnPolicyStep client m p)).1
    have i2 := (ih (signOnPolicyStep client m p)).2
    constructor
    · rw [i1, h1]
      split <;> push_cast <;> omega
    · rw [i2, h2]
      split <;> push_cast <;> omega

theorem firstEnrollRequiresMFA_cons_neg (rule : PolicyRule) (rest : List PolicyRule)
    (hq : isQualEnrollRule rule = false) :
    firstEnrollRequiresMFA (rule :: rest) = firstEnrollRequiresMFA rest := by
  unfold firstEnrollRequiresMFA
  rw [List.find?_cons_of_neg _ (by simp [hq])]

theorem firstEnrollRequiresMFA_cons_pos (rule : PolicyRule) (rest : List PolicyRule)
    (hq : isQualEnrollRule rule = true) :
    firstEnrollRequiresMFA (rule :: rest) =
      (match rule.actions.enroll with
       | some enroll =>
         decide (strToUpper enroll.self = MFAActionChallenge) ||
           decide (strToUpper enroll.self = MFAActionLogin)
       | none => false) := by
  unfold firstEnrollRequiresMFA
  rw [List.find?_cons_of_pos _ hq]

theorem processMFAEnrollRules_spec (rules : List PolicyRule) (m : policyMetricsCollector) :
    processMFAEnrollRules rules m =
      (if firstEnrollRequiresMFA rules then
        { m with mfaRequiredCount := m.mfaRequiredCount + 1 }
      else m) := by
  induction rules generalizing m with
  | nil => simp [processMFAEnrollRules, firstEnrollRequiresMFA]
  | cons rule rest ih =>
    cases he : rule.actions.enroll with
    | none =>
      have hq : isQualEnrollRule rule = false := by
        simp [isQualEnrollRule, he]
      have hstep : processMFAEnrollRules (rule :: rest) m = processMFAEnrollRules rest m := by
        conv_lhs => unfold processMFAEnrollRules
        rw [he]
      rw [hstep, firstEnrollRequiresMFA_cons_neg rule rest hq]
      exact ih m
    | some enroll =>
      by_cases hst : rule.status = StatusActive
      · have hq : isQualEnrollRule rule = true := by
          simp [isQualEnrollRule, he, hst]
        rw [firstEnrollRequiresMFA_cons_pos rule rest hq, he]
        unfold processMFAEnrollRules
        rw [he]
        dsimp only
        rw [if_neg (not_not_intro hst)]
      · have hq : isQualEnrollRule rule = false := by
          simp [isQualEnrollRule, hst]
        have hstep : processMFAEnrollRules (rule :: rest) m = processMFAEnrollRules rest m := by
          conv_lhs => unfold processMFAEnrollRules
          rw [he]
          dsimp only
          rw [if_pos hst]
        rw [hstep, firstEnrollRequiresMFA_cons_neg rule rest hq]
        exact ih m

theorem mfaEnrollPolicyStep_spec (client : ClientModel) (m : policyMetricsCollector)
    (policy : Policy) :
    mfaEnrollPolicyStep client m policy =
      (if enrollPolicyRequiresMFA client policy then
        { m with mfaRequiredCount := m.mfaRequiredCount + 1 }
      else m) := by
  unfold mfaEnrollPolicyStep enrollPolicyRequiresMFA
  by_cases hp : policy.status = StatusActive
  · rw [if_neg (not_not_intro hp)]
    cases hr : client.policyRulesFetch policy.id with
    | none => simp [hp]
    | some rules =>
      dsimp only
      rw [processMFAEnrollRules_spec rules m]
      simp [hp]
  · rw [if_pos hp]
    simp [hp]

theorem foldl_mfaEnrollPolicyStep_spec (client : ClientModel) (policies : List Policy)
    (m : policyMetricsCollector) :
    policies.foldl (mfaEnrollPolicyStep client) m =
      { m with mfaRequiredCount :=
          m.mfaRequiredCount + ((policies.countP (enrollPolicyRequiresMFA client) : Nat) : Int) } := by
  induction policies generalizing m with
  | nil => simp
  | cons p ps ih =>
    rw [List.foldl_cons, List.countP_cons, mfaEnrollPolicyStep_spec, ih]
    split <;> (try simp) <;> push_cast <;> omega

theorem collectPolicyMetrics_spec (client : ClientModel) (sps eps : List Policy)
    (hs : client.policiesFetch PolicyTypeSignOn = some sps)
    (he : client.policiesFetch PolicyTypeMFAEnroll = some eps) :
    (collectPolicyMetrics client).policyCount =
      ((sps.countP (signOnPolicyQualifies client) : Nat) : Int) ∧
    (collectPolicyMetrics client).mfaRequiredCount =
      ((sps.countP (signOnPolicyRequiresFactor client) : Nat) : Int) +
        ((eps.countP (enrollPolicyRequiresMFA client) : Nat) : Int) := by
  unfold collectPolicyMetrics collectSignOnPolicies collectMFAEnrollPolicies
  rw [hs, he]
  dsimp only
  rw [foldl_mfaEnrollPolicyStep_spec]
  have h1 := (foldl_signOnPolicyStep_spec client sps {}).1
  have h2 := (foldl_signOnPolicyStep_spec client sps {}).2
  constructor
  · dsimp only
    rw [h1]
    simp
  · dsimp only
    rw [h2]
    simp

theorem Collect_some_fields (config : Config) (client : ClientModel) (threshold : GoTime)
    (posture : OrgPosture) (h : Collect config client threshold = some posture) :
    ∃ um am, collectUserMetrics client threshold = some um ∧
      collectAppMetrics client = some am ∧
      posture = {
        orgDomain := config.orgDomain
        posture := {
          mfaCoverage := um.mfaEnrolled
          mfaPhishingResistant := um.mfaPhishingResistant
          ssoCoverage := am.ssoCoverage }
        users := {
          passwordExpired := um.passwordExpired
          lockedOut := um.lockedOut
          inactive := um.inactive }
        apps := {
          provisioningEnabled := am.provisioningEnabled
          deprovisioningEnabled := am.deprovisioningEnabled }
        policy := {
          policyCount := (collectPolicyMetrics client).policyCount
          mfaRequiredAll := decide ((collectPolicyMetrics client).policyCount > 0) &&
            decide ((collectPolicyMetrics client).mfaRequiredCount ≥
              (collectPolicyMetrics client).policyCount)
          mfaRequiredAny := decide ((collectPolicyMetrics client).mfaRequiredCount > 0)
          sessionLifetimeMinMinutes := (collectPolicyMetrics client).sessionLifetimeMin
          sessionLifetimeMaxMinutes := (collectPolicyMetrics client).sessionLifetimeMax
          idleTimeoutMinMinutes := (collectPolicyMetrics client).idleTimeoutMin
          idleTimeoutMaxMinutes := (collectPolicyMetrics client).idleTimeoutMax } } := by
  unfold Collect at h
  split at h
  · simp at h
  · cases hu : collectUserMetrics client threshold with
    | none =>
      rw [hu] at h
      simp at h
    | some um =>
      rw [hu] at h
      dsimp only at h
      cases ha : collectAppMetrics client with
      | none =>
        rw [ha] at h
        simp at h
      | some am =>
        rw [ha] at h
        dsimp only at h
        refine ⟨um, am, rfl, rfl, ?_⟩
        injection h with h
        exact h.symm

/-- Claim C2: the emitted policy fields are derived as the claim says:
`policy_count` is the number of active sign-on policies whose (successfully
fetched) rule list contains an active rule with a sign-on action;
`mfa_required_all` holds exactly when that count is positive and the shared
MFA-required tally reaches it; `mfa_required_any` holds exactly when the tally
is positive — where the tally adds, into one counter, the qualifying sign-on
policies whose first usable rule sets requireFactor and the active enrollment
policies whose first usable enroll rule has self CHALLENGE or LOGIN
(case-insensitively). -/
theorem claim_C2_policy_fields (config : Config) (client : ClientModel)
    (threshold : GoTime) (sps eps : List Policy) (posture : OrgPosture)
    (hs : client.policiesFetch PolicyTypeSignOn = some sps)
    (he : client.policiesFetch PolicyTypeMFAEnroll = some eps)
    (h : Collect config client threshold = some posture) :
    posture.policy.policyCount = ((sps.countP (signOnPolicyQualifies client) : Nat) : Int) ∧
    (posture.policy.mfaRequiredAll = true ↔
      (0 < posture.policy.policyCount ∧
        posture.policy.policyCount ≤
          ((sps.countP (signOnPolicyRequiresFactor client) : Nat) : Int) +
            ((eps.countP (enrollPolicyRequiresMFA client) : Nat) : Int))) ∧
    (posture.policy.mfaRequiredAny = true ↔
      0 < ((sps.countP (signOnPolicyRequiresFactor client) : Nat) : Int) +
            ((eps.countP (enrollPolicyRequiresMFA client) : Nat) : Int)) := by
  obtain ⟨um, am, hu, ha, rfl⟩ := Collect_some_fields config client threshold posture h
  have hp1 := (collectPolicyMetrics_spec client sps eps hs he).1
  have hp2 := (collectPolicyMetrics_spec client sps eps hs he).2
  dsimp only
  rw [hp1, hp2]
  refine ⟨rfl, ?_, ?_⟩ <;> simp [ge_iff_le, gt_iff_lt]

/-- The concrete client used to witness claim C2: one active sign-on policy
with one active factor-requiring rule, no enrollment policies. -/
def c2Client : ClientModel where
  usersFetch := some []
  factorsFetch := fun _ => some []
  appsFetch := some []
  policiesFetch := fun ty =>
    if ty = PolicyTypeSignOn then some [⟨"policy1", "ACTIVE"⟩] else some []
  policyRulesFetch := fun pid =>
    if pid = "policy1" then some [⟨"rule1", "ACTIVE", ⟨some ⟨true, ⟨120, 1440⟩⟩, none⟩⟩]
    else some []

def c2Config : Config :=
  { orgDomain := "test.okta.com", clientID := "", privateKey := "", apiToken := "t" }

def defaultPosture : OrgPosture :=
  { orgDomain := ""
    posture := ⟨0, 0, 0⟩
    users := ⟨0, 0, 0⟩
    apps := ⟨0, 0⟩
    policy := ⟨0, false, false, none, none, none, none⟩ }

def c2Posture : OrgPosture := (Collect c2Config c2Client ⟨0⟩).getD defaultPosture

/-- Witness for claim C2 at the concrete one-policy client. -/
theorem claim_C2_policy_fields_witness :
    c2Posture.policy.policyCount =
      (([(⟨"policy1", "ACTIVE"⟩ : Policy)].countP (signOnPolicyQualifies c2Client) : Nat) : Int) :=
  (claim_C2_policy_fields c2Config c2Client ⟨0⟩ [⟨"policy1", "ACTIVE"⟩] [] c2Posture
    (by decide) (by decide) (by decide)).1

/-!  ## Claim C10: the min/max pair invariant  -/

/-- The invariant each min/max pointer pair maintains: both unset, or both
set with positive values and min ≤ max. -/
def rangeInv (mn mx : Option Int) : Prop :=
  (mn = none ∧ mx = none) ∨
    (∃ a b, mn = some a ∧ mx = some b ∧ 0 < a ∧ 0 < b ∧ a ≤ b)

theorem updateMinMax_rangeInv (mn mx : Option Int) (v : Int) (h : rangeInv mn mx) :
    rangeInv (updateMinMax mn mx v).1 (updateMinMax mn mx v).2 := by
  unfold updateMinMax
  by_cases hv : v ≤ 0
  · rw [if_pos hv]
    exact h
  · rw [if_neg hv]
    push_neg at hv
    rcases h with ⟨h1, h2⟩ | ⟨a, b, ha1, hb1, ha, hb, hab⟩
    · subst h1
      subst h2
      exact Or.inr ⟨v, v, rfl, rfl, hv, hv, le_refl v⟩
    · subst ha1
      subst hb1
      dsimp only
      by_cases hlt : v < a
      · rw [if_pos hlt]
        by_cases hgt : v > b
        · rw [if_pos hgt]
          exact Or.inr ⟨v, v, rfl, rfl, hv, hv, le_refl v⟩
        · rw [if_neg hgt]
          exact Or.inr ⟨v, b, rfl, rfl, hv, hb, not_lt.mp hgt⟩
      · rw [if_neg hlt]
        by_cases hgt : v > b
        · rw [if_pos hgt]
          exact Or.inr ⟨a, v, rfl, rfl, ha, hv, not_lt.mp hlt⟩
        · rw [if_neg hgt]
          exact Or.inr ⟨a, b, rfl, rfl, ha, hb, hab⟩

theorem processSignOnRules_rangeInv (rules : List PolicyRule) (m : policyMetricsCollector)
    (h1 : rangeInv m.sessionLifetimeMin m.sessionLifetimeMax)
    (h2 : rangeInv m.idleTimeoutMin m.idleTimeoutMax) :
    rangeInv (processSignOnRules rules m).1.sessionLifetimeMin
        (processSignOnRules rules m).1.sessionLifetimeMax ∧
    rangeInv (processSignOnRules rules m).1.idleTimeoutMin
        (processSignOnRules rules m).1.idleTimeoutMax := by
  induction rules generalizing m with
  | nil => exact ⟨h1, h2⟩
  | cons rule rest ih =>
    cases hs : rule.actions.signon with
    | none =>
      have hstep : processSignOnRules (rule :: rest) m = processSignOnRules rest m := by
        conv_lhs => unfold processSignOnRules
        rw [hs]
      rw [hstep]
      exact ih m h1 h2
    | some signon =>
      by_cases hst : rule.status = StatusActive
      · unfold processSignOnRules
        rw [hs]
        dsimp only
        rw [if_neg (not_not_intro hst)]
        dsimp only
        constructor
        · split <;> exact updateMinMax_rangeInv _ _ _ h1
        · split <;> exact updateMinMax_rangeInv _ _ _ h2
      · have hstep : processSignOnRules (rule :: rest) m = processSignOnRules rest m := by
          conv_lhs => unfold processSignOnRules
          rw [hs]
          dsimp only
          rw [if_pos hst]
        rw [hstep]
        exact ih m h1 h2

theorem signOnPolicyStep_rangeInv (client : ClientModel) (m : policyMetricsCollector)
    (policy : Policy)
    (h1 : rangeInv m.sessionLifetimeMin m.sessionLifetimeMax)
    (h2 : rangeInv m.idleTimeoutMin m.idleTimeoutMax) :
    rangeInv (signOnPolicyStep client m policy).sessionLifetimeMin
        (signOnPolicyStep client m policy).sessionLifetimeMax ∧
    rangeInv (signOnPolicyStep client m policy).idleTimeoutMin
        (signOnPolicyStep client m policy).idleTimeoutMax := by
  unfold signOnPolicyStep
  split
  · exact ⟨h1, h2⟩
  · cases hr : client.policyRulesFetch policy.id with
    | none => exact ⟨h1, h2⟩
    | some rules =>
      dsimp only
      have hpr := processSignOnRules_rangeInv rules m h1 h2
      constructor
      · split <;> exact hpr.1
      · split <;> exact hpr.2

theorem foldl_signOnPolicyStep_rangeInv (client : ClientModel) (policies : List Policy)
    (m : policyMetricsCollector)
    (h1 : rangeInv m.sessionLifetimeMin m.sessionLifetimeMax)
    (h2 : rangeInv m.idleTimeoutMin m.idleTimeoutMax) :
    rangeInv (policies.foldl (signOnPolicyStep client) m).sessionLifetimeMin
        (policies.foldl (signOnPolicyStep client) m).sessionLifetimeMax ∧
    rangeInv (policies.foldl (signOnPolicyStep client) m).idleTimeoutMin
        (policies.foldl (signOnPolicyStep client) m).idleTimeoutMax := by
  induction policies generalizing m with
  | nil => exact ⟨h1, h2⟩
  | cons p ps ih =>
    rw [List.foldl_cons]
    have hstep := signOnPolicyStep_rangeInv client m p h1 h2
    exact ih (signOnPolicyStep client m p) hstep.1 hstep.2

theorem collectMFAEnrollPolicies_minmax (client : ClientModel) (m : policyMetricsCollector) :
    (collectMFAEnrollPolicies client m).sessionLifetimeMin = m.sessionLifetimeMin ∧
    (collectMFAEnrollPolicies client m).sessionLifetimeMax = m.sessionLifetimeMax ∧
    (collectMFAEnrollPolicies client m).idleTimeoutMin = m.idleTimeoutMin ∧
    (collectMFAEnrollPolicies client m).idleTimeoutMax = m.idleTimeoutMax ∧
    (collectMFAEnrollPolicies client m).policyCount = m.policyCount := by
  unfold collectMFAEnrollPolicies
  cases client.policiesFetch PolicyTypeMFAEnroll with
  | none => exact ⟨rfl, rfl, rfl, rfl, rfl⟩
  | some eps =>
    dsimp only
    rw [foldl_mfaEnrollPolicyStep_spec]
    exact ⟨rfl, rfl, rfl, rfl, rfl⟩

theorem collectPolicyMetrics_rangeInv (client : ClientModel) :
    rangeInv (collectPolicyMetrics client).sessionLifetimeMin
        (collectPolicyMetrics client).sessionLifetimeMax ∧
    rangeInv (collectPolicyMetrics client).idleTimeoutMin
        (collectPolicyMetrics client).idleTimeoutMax := by
  unfold collectPolicyMetrics
  have hm := collectMFAEnrollPolicies_minmax client (collectSignOnPolicies client {})
  rw [hm.1, hm.2.1, hm.2.2.1, hm.2.2.2.1]
  unfold collectSignOnPolicies
  cases client.policiesFetch PolicyTypeSignOn with
  | none => exact ⟨Or.inl ⟨rfl, rfl⟩, Or.inl ⟨rfl, rfl⟩⟩
  | some sps =>
    dsimp only
    exact foldl_signOnPolicyStep_rangeInv client sps {} (Or.inl ⟨rfl, rfl⟩) (Or.inl ⟨rfl, rfl⟩)

/-- Claim C10: after any sequence of `updateMinMax` calls starting from both
pointers unset, each min/max pair is either both unset or both set with
positive values and min ≤ max; consequently, in every emitted record, the
session-lifetime and idle-timeout min/max pairs each satisfy: min is null
exactly when max is null, and when both are set, 0 < min ≤ max. -/
theorem claim_C10_minmax_invariant :
    (∀ values : List Int,
      rangeInv (values.foldl (fun p v => updateMinMax p.1 p.2 v) (none, none)).1
        (values.foldl (fun p v => updateMinMax p.1 p.2 v) (none, none)).2) ∧
    (∀ (config : Config) (client : ClientModel) (threshold : GoTime) (posture : OrgPosture),
      Collect config client threshold = some posture →
      (rangeInv posture.policy.sessionLifetimeMinMinutes
          posture.policy.sessionLifetimeMaxMinutes ∧
        rangeInv posture.policy.idleTimeoutMinMinutes
          posture.policy.idleTimeoutMaxMinutes)) := by
  constructor
  · have key : ∀ (values : List Int) (p : Option Int × Option Int), rangeInv p.1 p.2 →
        rangeInv (values.foldl (fun p v => updateMinMax p.1 p.2 v) p).1
          (values.foldl (fun p v => updateMinMax p.1 p.2 v) p).2 := by
      intro values
      induction values with
      | nil => intro p hp; exact hp
      | cons v vs ih =>
        intro p hp
        rw [List.foldl_cons]
        exact ih (updateMinMax p.1 p.2 v) (updateMinMax_rangeInv p.1 p.2 v hp)
    intro values
    exact key values (none, none) (Or.inl ⟨rfl, rfl⟩)
  · intro config client threshold posture h
    obtain ⟨um, am, hu, ha, rfl⟩ := Collect_some_fields config client threshold posture h
    exact collectPolicyMetrics_rangeInv client

/-- Witness for claim C10 at the concrete one-policy client. -/
theorem claim_C10_minmax_invariant_witness :
    rangeInv c2Posture.policy.sessionLifetimeMinMinutes
      c2Posture.policy.sessionLifetimeMaxMinutes ∧
    rangeInv c2Posture.policy.idleTimeoutMinMinutes
      c2Posture.policy.idleTimeoutMaxMinutes :=
  claim_C10_minmax_invariant.2 c2Config c2Client ⟨0⟩ c2Posture (by decide)

/-!  ## Claim C4: user and application counter bounds  -/

/-- The 0/1 contribution of a user's factor fetch to the MFA-enrolled count. -/
def factorsBumpMFA (client : ClientModel) (userID : String) : Int :=
  match client.factorsFetch userID with
  | none => 0
  | some factors => if (factorScan factors false false).1 then 1 else 0

/-- The 0/1 contribution of a user's factor fetch to the phishing-resistant
count. -/
def factorsBumpPR (client : ClientModel) (userID : String) : Int :=
  match client.factorsFetch userID with
  | none => 0
  | some factors => if (factorScan factors false false).2 then 1 else 0

theorem factorsBumpMFA_range (client : ClientModel) (userID : String) :
    0 ≤ factorsBumpMFA client userID ∧ factorsBumpMFA client userID ≤ 1 := by
  unfold factorsBumpMFA
  cases client.factorsFetch userID with
  | none => dsimp only; omega
  | some factors =>
    dsimp only
    split <;> omega

theorem factorsBumpPR_range (client : ClientModel) (userID : String) :
    0 ≤ factorsBumpPR client userID ∧ factorsBumpPR client userID ≤ 1 := by
  unfold factorsBumpPR
  cases client.factorsFetch userID with
  | none => dsimp only; omega
  | some factors =>
    dsimp only
    split <;> omega

theorem processUserFactors_totalUsers (client : ClientModel) (userID : String)
    (m : userMetricsCollector) :
    (processUserFactors client userID m).totalUsers = m.totalUsers := by
  unfold processUserFactors
  cases client.factorsFetch userID with
  | none => rfl
  | some factors =>
    dsimp only
    split <;> split <;> rfl

theorem processUserFactors_passwordExpired (client : ClientModel) (userID : String)
    (m : userMetricsCollector) :
    (processUserFactors client userID m).passwordExpired = m.passwordExpired := by
  unfold processUserFactors
  cases client.factorsFetch userID with
  | none => rfl
  | some factors =>
    dsimp only
    split <;> split <;> rfl

theorem processUserFactors_lockedOut (client : ClientModel) (userID : String)
    (m : userMetricsCollector) :
    (processUserFactors client userID m).lockedOut = m.lockedOut := by
  unfold processUserFactors
  cases client.factorsFetch userID with
  | none => rfl
  | some factors =>
    dsimp only
    split <;> split <;> rfl

theorem processUserFactors_mfaEnrolled (client : ClientModel) (userID : String)
    (m : userMetricsCollector) :
    (processUserFactors client userID m).mfaEnrolled = m.mfaEnrolled := by
  unfold processUserFactors
  cases client.factorsFetch userID with
  | none => rfl
  | some factors =>
    dsimp only
    split <;> split <;> rfl

theorem processUserFactors_mfaEnrolledCount (client : ClientModel) (userID : String)
    (m : userMetricsCollector) :
    (processUserFactors client userID m).mfaEnrolledCount =
      m.mfaEnrolledCount + factorsBumpMFA client userID := by
  unfold processUserFactors factorsBumpMFA
  cases client.factorsFetch userID with
  | none => dsimp only; omega
  | some factors =>
    dsimp only
    split <;> split <;> (try dsimp only) <;> omega

theorem processUserFactors_mfaPhishingResistant (client : ClientModel) (userID : String)
    (m : userMetricsCollector) :
    (processUserFactors client userID m).mfaPhishingResistant =
      m.mfaPhishingResistant + factorsBumpPR client userID := by
  unfold processUserFactors factorsBumpPR
  cases client.factorsFetch userID with
  | none => dsimp only; omega
  | some factors =>
    dsimp only
    split <;> split <;> (try dsimp only) <;> omega

/-- The inductive invariant of the user accumulator: the total is
non-negative and every bucket count sits in [0, total]. -/
def userCountsInv (m : userMetricsCollector) : Prop :=
  0 ≤ m.totalUsers ∧
  0 ≤ m.mfaEnrolledCount ∧ m.mfaEnrolledCount ≤ m.totalUsers ∧
  0 ≤ m.mfaPhishingResistant ∧ m.mfaPhishingResistant ≤ m.totalUsers ∧
  0 ≤ m.passwordExpired ∧ m.passwordExpired ≤ m.totalUsers ∧
  0 ≤ m.lockedOut ∧ m.lockedOut ≤ m.totalUsers ∧
  0 ≤ m.inactive ∧ m.inactive ≤ m.totalUsers

theorem processUser_inv (client : ClientModel) (user : User) (threshold : GoTime)
    (m : userMetricsCollector) (h : userCountsInv m) :
    userCountsInv (processUser client user threshold m) := by
  have hmfa := factorsBumpMFA_range client user.id
  have hpr := factorsBumpPR_range client user.id
  unfold userCountsInv at h ⊢
  unfold processUser
  split
  · exact h
  · dsimp only
    simp only [processUserFactors_totalUsers, processUserFactors_passwordExpired,
      processUserFactors_lockedOut, processUserFactors_inactive,
      processUserFactors_mfaEnrolledCount, processUserFactors_mfaPhishingResistant]
    split <;> split <;> (try split) <;> (try dsimp only) <;> omega

theorem foldl_processUser_inv (client : ClientModel) (threshold : GoTime)
    (users : List User) (m : userMetricsCollector) (h : userCountsInv m) :
    userCountsInv (users.foldl (fun m u => processUser client u threshold m) m) := by
  induction users generalizing m with
  | nil => exact h
  | cons u us ih =>
    rw [List.foldl_cons]
    exact ih _ (processUser_inv client u threshold m h)

theorem collectUserMetrics_bounds (client : ClientModel) (threshold : GoTime)
    (um : userMetricsCollector) (h : collectUserMetrics client threshold = some um) :
    (0 ≤ um.mfaEnrolled ∧ um.mfaEnrolled ≤ 100) ∧
    (0 ≤ um.mfaPhishingResistant ∧ um.mfaPhishingResistant ≤ 100) ∧
    (0 ≤ um.passwordExpired ∧ um.passwordExpired ≤ 100) ∧
    (0 ≤ um.lockedOut ∧ um.lockedOut ≤ 100) ∧
    (0 ≤ um.inactive ∧ um.inactive ≤ 100) := by
  unfold collectUserMetrics at h
  cases hu : client.usersFetch with
  | none =>
    rw [hu] at h
    simp at h
  | some users =>
    rw [hu] at h
    dsimp only at h
    injection h with h
    subst h
    have hinv := foldl_processUser_inv client threshold users {}
      (by unfold userCountsInv; dsimp only; omega)
    unfold userCountsInv at hinv
    dsimp only
    obtain ⟨h0, h1, h2, h3, h4, h5, h6, h7, h8, h9, h10⟩ := hinv
    exact ⟨⟨percent_nonneg _ _ h1 h0, percent_le_100 _ _ h1 h2⟩,
      ⟨percent_nonneg _ _ h3 h0, percent_le_100 _ _ h3 h4⟩,
      ⟨percent_nonneg _ _ h5 h0, percent_le_100 _ _ h5 h6⟩,
      ⟨percent_nonneg _ _ h7 h0, percent_le_100 _ _ h7 h8⟩,
      ⟨percent_nonneg _ _ h9 h0, percent_le_100 _ _ h9 h10⟩⟩

/-- The inductive invariant of the application accumulator. -/
def appCountsInv (m : appMetricsCollector) : Prop :=
  0 ≤ m.totalApps ∧
  0 ≤ m.ssoApps ∧ m.ssoApps ≤ m.totalApps ∧
  0 ≤ m.provisioningEnabled ∧ m.provisioningEnabled ≤ m.totalApps ∧
  0 ≤ m.deprovisioningEnabled ∧ m.deprovisioningEnabled ≤ m.totalApps

theorem processApp_inv (app : Application) (m : appMetricsCollector)
    (h : appCountsInv m) : appCountsInv (processApp app m) := by
  unfold appCountsInv at h ⊢
  unfold processApp
  dsimp only
  split <;> split <;> split <;> (try dsimp only) <;> omega

theorem foldl_processApp_inv (apps : List Application) (m : appMetricsCollector)
    (h : appCountsInv m) : appCountsInv (apps.foldl (fun m a => processApp a m) m) := by
  induction apps generalizing m with
  | nil => exact h
  | cons a as ih =>
    rw [List.foldl_cons]
    exact ih _ (processApp_inv a m h)

theorem collectAppMetrics_bounds (client : ClientModel) (am : appMetricsCollector)
    (h : collectAppMetrics client = some am) :
    (0 ≤ am.ssoCoverage ∧ am.ssoCoverage ≤ 100) ∧
    (0 ≤ am.provisioningEnabled ∧ am.provisioningEnabled ≤ 100) ∧
    (0 ≤ am.deprovisioningEnabled ∧ am.deprovisioningEnabled ≤ 100) := by
  unfold collectAppMetrics at h
  cases ha : client.appsFetch with
  | none =>
    rw [ha] at h
    simp at h
  | some apps =>
    rw [ha] at h
    dsimp only at h
    injection h with h
    subst h
    have hinv := foldl_processApp_inv apps {} (by unfold appCountsInv; dsimp only; omega)
    unfold appCountsInv at hinv
    dsimp only
    obtain ⟨h0, h1, h2, h3, h4, h5, h6⟩ := hinv
    exact ⟨⟨percent_nonneg _ _ h1 h0, percent_le_100 _ _ h1 h2⟩,
      ⟨percent_nonneg _ _ h3 h0, percent_le_100 _ _ h3 h4⟩,
      ⟨percent_nonneg _ _ h5 h0, percent_le_100 _ _ h5 h6⟩⟩

/-!  ## Claim C4: qualifying observations for the nullable range fields

A "qualifying observation" for a range family is a positive value carried by
the first usable rule of an active sign-on policy whose rules were fetched —
exactly the values `updateMinMax` does not ignore.  -/

/-- Whether the first usable sign-on rule carries a positive session
lifetime. -/
def firstSignOnSessionPos (rules : List PolicyRule) : Bool :=
  match rules.find? isQualSignOnRule with
  | some rule =>
    match rule.actions.signon with
    | some signon => decide (0 < signon.session.maxSessionLifetimeMinutes)
    | none => false
  | none => false

/-- Whether the first usable sign-on rule carries a positive idle timeout. -/
def firstSignOnIdlePos (rules : List PolicyRule) : Bool :=
  match rules.find? isQualSignOnRule with
  | some rule =>
    match rule.actions.signon with
    | some signon => decide (0 < signon.session.maxSessionIdleMinutes)
    | none => false
  | none => false

/-- An active sign-on policy contributing a session-lifetime observation. -/
def signOnPolicySessionObs (client : ClientModel) (policy : Policy) : Bool :=
  decide (policy.status = StatusActive) &&
    (match client.policyRulesFetch policy.id with
     | none => false
     | some rules => firstSignOnSessionPos rules)

/-- An active sign-on policy contributing an idle-timeout observation. -/
def signOnPolicyIdleObs (client : ClientModel) (policy : Policy) : Bool :=
  decide (policy.status = StatusActive) &&
    (match client.policyRulesFetch policy.id with
     | none => false
     | some rules => firstSignOnIdlePos rules)

/-- Number of session-lifetime observations for a whole run. -/
def sessionObsCount (client : ClientModel) : Nat :=
  match client.policiesFetch PolicyTypeSignOn with
  | none => 0
  | some sps => sps.countP (signOnPolicySessionObs client)

/-- Number of idle-timeout observations for a whole run. -/
def idleObsCount (client : ClientModel) : Nat :=
  match client.policiesFetch PolicyTypeSignOn with
  | none => 0
  | some sps => sps.countP (signOnPolicyIdleObs client)

theorem firstSignOnSessionPos_cons_neg (rule : PolicyRule) (rest : List PolicyRule)
    (hq : isQualSignOnRule rule = false) :
    firstSignOnSessionPos (rule :: rest) = firstSignOnSessionPos rest := by
  unfold firstSignOnSessionPos
  rw [List.find?_cons_of_neg _ (by simp [hq])]

theorem firstSignOnSessionPos_cons_pos (rule : PolicyRule) (rest : List PolicyRule)
    (hq : isQualSignOnRule rule = true) :
    firstSignOnSessionPos (rule :: rest) =
      (match rule.actions.signon with
       | some signon => decide (0 < signon.session.maxSessionLifetimeMinutes)
       | none => false) := by
  unfold firstSignOnSessionPos
  rw [List.find?_cons_of_pos _ hq]

theorem firstSignOnIdlePos_cons_neg (rule : PolicyRule) (rest : List PolicyRule)
    (hq : isQualSignOnRule rule = false) :
    firstSignOnIdlePos (rule :: rest) = firstSignOnIdlePos rest := by
  unfold firstSignOnIdlePos
  rw [List.find?_cons_of_neg _ (by simp [hq])]

theorem firstSignOnIdlePos_cons_pos (rule : PolicyRule) (rest : List PolicyRule)
    (hq : isQualSignOnRule rule = true) :
    firstSignOnIdlePos (rule :: rest) =
      (match rule.actions.signon with
       | some signon => decide (0 < signon.session.maxSessionIdleMinutes)
       | none => false) := by
  unfold firstSignOnIdlePos
  rw [List.find?_cons_of_pos _ hq]

theorem updateMinMax_none (mn mx : Option Int) (v : Int) :
    ((updateMinMax mn mx v).1 = none ↔ (mn = none ∧ v ≤ 0)) ∧
    ((updateMinMax mn mx v).2 = none ↔ (mx = none ∧ v ≤ 0)) := by
  unfold updateMinMax
  by_cases hv : v ≤ 0
  · rw [if_pos hv]
    simp [hv]
  · rw [if_neg hv]
    constructor
    · cases mn <;> simp [hv] <;> split <;> simp
    · cases mx <;> simp [hv] <;> split <;> simp

theorem processSignOnRules_none (rules : List PolicyRule) (m : policyMetricsCollector) :
    ((processSignOnRules rules m).1.sessionLifetimeMin = none ↔
      (m.sessionLifetimeMin = none ∧ firstSignOnSessionPos rules = false)) ∧
    ((processSignOnRules rules m).1.sessionLifetimeMax = none ↔
      (m.sessionLifetimeMax = none ∧ firstSignOnSessionPos rules = false)) ∧
    ((processSignOnRules rules m).1.idleTimeoutMin = none ↔
      (m.idleTimeoutMin = none ∧ firstSignOnIdlePos rules = false)) ∧
    ((processSignOnRules rules m).1.idleTimeoutMax = none ↔
      (m.idleTimeoutMax = none ∧ firstSignOnIdlePos rules = false)) := by
  induction rules generalizing m with
  | nil =>
    refine ⟨?_, ?_, ?_, ?_⟩ <;> simp [processSignOnRules, firstSignOnSessionPos,
      firstSignOnIdlePos]
  | cons rule rest ih =>
    cases hs : rule.actions.signon with
    | none =>
      have hq : isQualSignOnRule rule = false := by
        simp [isQualSignOnRule, hs]
      have hstep : processSignOnRules (rule :: rest) m = processSignOnRules rest m := by
        conv_lhs => unfold processSignOnRules
        rw [hs]
      rw [hstep, firstSignOnSessionPos_cons_neg rule rest hq,
        firstSignOnIdlePos_cons_neg rule rest hq]
      exact ih m
    | some signon =>
      by_cases hst : rule.status = StatusActive
      · have hq : isQualSignOnRule rule = true := by
          simp [isQualSignOnRule, hs, hst]
        rw [firstSignOnSessionPos_cons_pos rule rest hq,
          firstSignOnIdlePos_cons_pos rule rest hq, hs]
        unfold processSignOnRules
        rw [hs]
        dsimp only
        rw [if_neg (not_not_intro hst)]
        dsimp only
        have h1 := updateMinMax_none m.sessionLifetimeMin m.sessionLifetimeMax
          signon.session.maxSessionLifetimeMinutes
        have h2 := updateMinMax_none m.idleTimeoutMin m.idleTimeoutMax
          signon.session.maxSessionIdleMinutes
        refine ⟨?_, ?_, ?_, ?_⟩ <;> (try split) <;>
          simp_all <;> omega
      · have hq : isQualSignOnRule rule = false := by
          simp [isQualSignOnRule, hst]
        have hstep : processSignOnRules (rule :: rest) m = processSignOnRules rest m := by
          conv_lhs => unfold processSignOnRules
          rw [hs]
          dsimp only
          rw [if_pos hst]
        rw [hstep, firstSignOnSessionPos_cons_neg rule rest hq,
          firstSignOnIdlePos_cons_neg rule rest hq]
        exact ih m

theorem signOnPolicyStep_none (client : ClientModel) (m : policyMetricsCollector)
    (policy : Policy) :
    ((signOnPolicyStep client m policy).sessionLifetimeMin = none ↔
      (m.sessionLifetimeMin = none ∧ signOnPolicySessionObs client policy = false)) ∧
    ((signOnPolicyStep client m policy).sessionLifetimeMax = none ↔
      (m.sessionLifetimeMax = none ∧ signOnPolicySessionObs client policy = false)) ∧
    ((signOnPolicyStep client m policy).idleTimeoutMin = none ↔
      (m.idleTimeoutMin = none ∧ signOnPolicyIdleObs client policy = false)) ∧
    ((signOnPolicyStep client m policy).idleTimeoutMax = none ↔
      (m.idleTimeoutMax = none ∧ signOnPolicyIdleObs client policy = false)) := by
  unfold signOnPolicyStep signOnPolicySessionObs signOnPolicyIdleObs
  by_cases hp : policy.status = StatusActive
  · rw [if_neg (not_not_intro hp)]
    cases hr : client.policyRulesFetch policy.id with
    | none => simp [hp]
    | some rules =>
      dsimp only
      have hn := processSignOnRules_none rules m
      refine ⟨?_, ?_, ?_, ?_⟩ <;> split <;> simp_all [hp]
  · rw [if_pos hp]
    simp [hp]

theorem foldl_signOnPolicyStep_none (client : ClientModel) (policies : List Policy)
    (m : policyMetricsCollector) :
    ((policies.foldl (signOnPolicyStep client) m).sessionLifetimeMin = none ↔
      (m.sessionLifetimeMin = none ∧
        policies.countP (signOnPolicySessionObs client) = 0)) ∧
    ((policies.foldl (signOnPolicyStep client) m).sessionLifetimeMax = none ↔
      (m.sessionLifetimeMax = none ∧
        policies.countP (signOnPolicySessionObs client) = 0)) ∧
    ((policies.foldl (signOnPolicyStep client) m).idleTimeoutMin = none ↔
      (m.idleTimeoutMin = none ∧ policies.countP (signOnPolicyIdleObs client) = 0)) ∧
    ((policies.foldl (signOnPolicyStep client) m).idleTimeoutMax = none ↔
      (m.idleTimeoutMax = none ∧ policies.countP (signOnPolicyIdleObs client) = 0)) := by
  induction policies generalizing m with
  | nil => simp
  | cons p ps ih =>
    rw [List.foldl_cons, List.countP_cons, List.countP_cons]
    have hstep := signOnPolicyStep_none client m p
    have hind := ih (signOnPolicyStep client m p)
    refine ⟨?_, ?_, ?_, ?_⟩
    · rw [hind.1, hstep.1]
      cases ho : signOnPolicySessionObs client p <;> simp [ho] <;> omega
    · rw [hind.2.1, hstep.2.1]
      cases ho : signOnPolicySessionObs client p <;> simp [ho] <;> omega
    · rw [hind.2.2.1, hstep.2.2.1]
      cases ho : signOnPolicyIdleObs client p <;> simp [ho] <;> omega
    · rw [hind.2.2.2, hstep.2.2.2]
      cases ho : signOnPolicyIdleObs client p <;> simp [ho] <;> omega

theorem collectPolicyMetrics_none (client : ClientModel) :
    ((collectPolicyMetrics client).sessionLifetimeMin = none ↔
      sessionObsCount client = 0) ∧
    ((collectPolicyMetrics client).sessionLifetimeMax = none ↔
      sessionObsCount client = 0) ∧
    ((collectPolicyMetrics client).idleTimeoutMin = none ↔ idleObsCount client = 0) ∧
    ((collectPolicyMetrics client).idleTimeoutMax = none ↔ idleObsCount client = 0) := by
  unfold collectPolicyMetrics sessionObsCount idleObsCount
  have hm := collectMFAEnrollPolicies_minmax client (collectSignOnPolicies client {})
  rw [hm.1, hm.2.1, hm.2.2.1, hm.2.2.2.1]
  unfold collectSignOnPolicies
  cases client.policiesFetch PolicyTypeSignOn with
  | none => simp
  | some sps =>
    dsimp only
    have h := foldl_signOnPolicyStep_none client sps {}
    rw [h.1, h.2.1, h.2.2.1, h.2.2.2]
    simp

/-- Claim C4: in every emitted record, each percentage field (mfa_coverage,
mfa_phishing_resistant, sso_coverage, password_expired, locked_out, inactive,
provisioning_enabled, deprovisioning_enabled) lies in [0,100], and each of the
four nullable range fields is null exactly when zero qualifying rules (a used
first-active-rule carrying a positive value) were observed for its family. -/
theorem claim_C4_output_invariants (config : Config) (client : ClientModel)
    (threshold : GoTime) (posture : OrgPosture)
    (h : Collect config client threshold = some posture) :
    (0 ≤ posture.posture.mfaCoverage ∧ posture.posture.mfaCoverage ≤ 100) ∧
    (0 ≤ posture.posture.mfaPhishingResistant ∧
      posture.posture.mfaPhishingResistant ≤ 100) ∧
    (0 ≤ posture.posture.ssoCoverage ∧ posture.posture.ssoCoverage ≤ 100) ∧
    (0 ≤ posture.users.passwordExpired ∧ posture.users.passwordExpired ≤ 100) ∧
    (0 ≤ posture.users.lockedOut ∧ posture.users.lockedOut ≤ 100) ∧
    (0 ≤ posture.users.inactive ∧ posture.users.inactive ≤ 100) ∧
    (0 ≤ posture.apps.provisioningEnabled ∧ posture.apps.provisioningEnabled ≤ 100) ∧
    (0 ≤ posture.apps.deprovisioningEnabled ∧
      posture.apps.deprovisioningEnabled ≤ 100) ∧
    (posture.policy.sessionLifetimeMinMinutes = none ↔ sessionObsCount client = 0) ∧
    (posture.policy.sessionLifetimeMaxMinutes = none ↔ sessionObsCount client = 0) ∧
    (posture.policy.idleTimeoutMinMinutes = none ↔ idleObsCount client = 0) ∧
    (posture.policy.idleTimeoutMaxMinutes = none ↔ idleObsCount client = 0) := by
  obtain ⟨um, am, hu, ha, rfl⟩ := Collect_some_fields config client threshold posture h
  have hub := collectUserMetrics_bounds client threshold um hu
  have hab := collectAppMetrics_bounds client am ha
  have hn := collectPolicyMetrics_none client
  exact ⟨hub.1, hub.2.1, hab.1, hub.2.2.1, hub.2.2.2.1, hub.2.2.2.2, hab.2.1, hab.2.2,
    hn.1, hn.2.1, hn.2.2.1, hn.2.2.2⟩

/-- Witness for claim C4 at the concrete one-policy client. -/
theorem claim_C4_output_invariants_witness :
    0 ≤ c2Posture.posture.mfaCoverage ∧ c2Posture.posture.mfaCoverage ≤ 100 :=
  (claim_C4_output_invariants c2Config c2Client ⟨0⟩ c2Posture (by decide)).1

/-!  ## Rate-limited request loop (`internal/okta/client.go`, `doRequest`;
constants from `internal/okta/constants.go`)

Durations are modelled in whole seconds (`defaultBackoff` is 1s,
`maxRateLimitWait` 60s, the reset header carries epoch seconds, and
`time.Until(reset) + time.Second` becomes `reset − now + 1`).  The request
method, path, headers and context do not affect the loop and are omitted.  An
environment gives, for each attempt number, the current time (epoch seconds)
and the response the server returns; the loop result records the outcome and
the list of waits slept between attempts.  -/

def maxRateLimitRetries : Nat := 3

def maxRateLimitWait : Int := 60

def defaultBackoff : Int := 1

def statusTooManyRequests : Int := 429

structure HttpResponse where
  statusCode : Int
  /-- Value of the X-Rate-Limit-Reset header; "" models an absent header, as
  Go's `Header.Get` returns. -/
  rateLimitResetHeader : String
  /-- Value of the Link header; "" models an absent header. -/
  linkHeader : String
deriving DecidableEq

inductive DoRequestResult where
  | ok (resp : HttpResponse)
  /-- the "rate limited after %d retries" error -/
  | rateLimitedAfterRetries
  /-- the "rate limit reset too far in future" error -/
  | resetTooFarInFuture (wait : Int)
  /-- the unreachable "rate limited" fall-through after the loop -/
  | rateLimited
deriving DecidableEq

/-- The wait computation inside `doRequest`: the default backoff, replaced by
(reset − now + 1s) when the reset header is present and parses as an
integer. -/
def rateLimitWait (resetHeader : String) (now : Int) : Int :=
  if resetHeader ≠ "" then
    match parseIntDec resetHeader with
    | some resetTime => resetTime - now + 1
    | none => defaultBackoff
  else defaultBackoff

/-- The retry loop of `doRequest`.  `remaining` counts the loop iterations
left (`attempt ≤ maxRateLimitRetries` gives `maxRateLimitRetries + 1` of
them); on HTTP 429 with retries left, the wait is computed, the run fails
fast when it exceeds the ceiling, a negative wait is replaced by the default
backoff, and the same request is retried after sleeping. -/
def doRequestLoop (env : Nat → Int × HttpResponse) :
    Nat → Nat → DoRequestResult × List Int
  | 0, _ => (.rateLimited, [])
  | remaining + 1, attempt =>
    let now := (env attempt).1
    let resp := (env attempt).2
    if resp.statusCode = statusTooManyRequests then
      if maxRateLimitRetries ≤ attempt then (.rateLimitedAfterRetries, [])
      else
        let waitDuration := rateLimitWait resp.rateLimitResetHeader now
        if maxRateLimitWait < waitDuration then (.resetTooFarInFuture waitDuration, [])
        else
          let waitDuration := if waitDuration < 0 then defaultBackoff else waitDuration
          let r := doRequestLoop env remaining (attempt + 1)
          (r.1, waitDuration :: r.2)
    else (.ok resp, [])

/-- `doRequest` from `client.go`, as a function of the attempt environment. -/
def doRequest (env : Nat → Int × HttpResponse) : DoRequestResult × List Int :=
  doRequestLoop env (maxRateLimitRetries + 1) 0

theorem doRequestLoop_ok (env : Nat → Int × HttpResponse) (remaining attempt : Nat)
    (h : (env attempt).2.statusCode ≠ statusTooManyRequests) :
    doRequestLoop env (remaining + 1) attempt = (.ok (env attempt).2, []) := by
  unfold doRequestLoop
  dsimp only
  rw [if_neg h]

theorem doRequestLoop_exhausted (env : Nat → Int × HttpResponse)
    (remaining attempt : Nat)
    (h : (env attempt).2.statusCode = statusTooManyRequests)
    (ha : maxRateLimitRetries ≤ attempt) :
    doRequestLoop env (remaining + 1) attempt = (.rateLimitedAfterRetries, []) := by
  unfold doRequestLoop
  dsimp only
  rw [if_pos h, if_pos ha]

theorem doRequestLoop_tooFar (env : Nat → Int × HttpResponse)
    (remaining attempt : Nat)
    (h : (env attempt).2.statusCode = statusTooManyRequests)
    (hna : attempt < maxRateLimitRetries)
    (hw : maxRateLimitWait <
      rateLimitWait (env attempt).2.rateLimitResetHeader (env attempt).1) :
    doRequestLoop env (remaining + 1) attempt =
      (.resetTooFarInFuture
        (rateLimitWait (env attempt).2.rateLimitResetHeader (env attempt).1), []) := by
  unfold doRequestLoop
  dsimp only
  rw [if_pos h, if_neg (not_le.mpr hna), if_pos hw]

theorem doRequestLoop_retry (env : Nat → Int × HttpResponse)
    (remaining attempt : Nat)
    (h : (env attempt).2.statusCode = statusTooManyRequests)
    (hna : attempt < maxRateLimitRetries)
    (hw : rateLimitWait (env attempt).2.rateLimitResetHeader (env attempt).1 ≤
      maxRateLimitWait) :
    doRequestLoop env (remaining + 1) attempt =
      ((doRequestLoop env remaining (attempt + 1)).1,
        (if rateLimitWait (env attempt).2.rateLimitResetHeader (env attempt).1 < 0 then
          defaultBackoff
        else rateLimitWait (env attempt).2.rateLimitResetHeader (env attempt).1) ::
          (doRequestLoop env remaining (attempt + 1)).2) := by
  conv_lhs => unfold doRequestLoop
  dsimp only
  rw [if_pos h, if_neg (not_le.mpr hna), if_neg (not_lt.mpr hw)]

theorem doRequestLoop_all429 (env : Nat → Int × HttpResponse)
    (hs : ∀ i, (env i).2.statusCode = statusTooManyRequests)
    (hw : ∀ i, rateLimitWait (env i).2.rateLimitResetHeader (env i).1 ≤
      maxRateLimitWait) :
    ∀ remaining attempt, attempt ≤ maxRateLimitRetries →
      attempt + remaining = maxRateLimitRetries + 1 →
      (doRequestLoop env remaining attempt).1 = .rateLimitedAfterRetries ∧
      (doRequestLoop env remaining attempt).2.length + attempt = maxRateLimitRetries := by
  intro remaining
  induction remaining with
  | zero =>
    intro attempt h1 h2
    omega
  | succ n ih =>
    intro attempt h1 h2
    by_cases ha : maxRateLimitRetries ≤ attempt
    · rw [doRequestLoop_exhausted env n attempt (hs attempt) ha]
      refine ⟨rfl, ?_⟩
      dsimp only [List.length_nil]
      omega
    · rw [doRequestLoop_retry env n attempt (hs attempt) (not_le.mp ha) (hw attempt)]
      have hrec := ih (attempt + 1) (by omega) (by omega)
      refine ⟨hrec.1, ?_⟩
      dsimp only [List.length_cons]
      have := hrec.2
      omega

/-- Claim C8: on a quota-exceeded (429) response, the wait is
(reset − now + 1s) when the reset header is present and parseable and the
default backoff otherwise; a wait above the 60-second ceiling fails fast; a
negative wait is replaced by the default backoff; the same request is retried
at most 3 times, and exhausting the retries yields the rate-limit error; a
non-429 response is returned immediately. -/
theorem claim_C8_rate_limit_handling :
    (∀ (header : String) (now r : Int), header ≠ "" → parseIntDec header = some r →
      rateLimitWait header now = r - now + 1) ∧
    (∀ (header : String) (now : Int), header = "" ∨ parseIntDec header = none →
      rateLimitWait header now = defaultBackoff) ∧
    (∀ env : Nat → Int × HttpResponse,
      (env 0).2.statusCode = statusTooManyRequests →
      maxRateLimitWait < rateLimitWait (env 0).2.rateLimitResetHeader (env 0).1 →
      doRequest env =
        (.resetTooFarInFuture (rateLimitWait (env 0).2.rateLimitResetHeader (env 0).1),
          [])) ∧
    (∀ env : Nat → Int × HttpResponse,
      (env 0).2.statusCode = statusTooManyRequests →
      rateLimitWait (env 0).2.rateLimitResetHeader (env 0).1 < 0 →
      (doRequest env).2.head? = some defaultBackoff) ∧
    (∀ env : Nat → Int × HttpResponse,
      (∀ i, (env i).2.statusCode = statusTooManyRequests) →
      (∀ i, rateLimitWait (env i).2.rateLimitResetHeader (env i).1 ≤ maxRateLimitWait) →
      (doRequest env).1 = .rateLimitedAfterRetries ∧
        (doRequest env).2.length = maxRateLimitRetries) ∧
    (∀ env : Nat → Int × HttpResponse,
      (env 0).2.statusCode ≠ statusTooManyRequests →
      doRequest env = (.ok (env 0).2, [])) := by
  refine ⟨?_, ?_, ?_, ?_, ?_, ?_⟩
  · intro header now r hne hp
    unfold rateLimitWait
    rw [if_pos hne, hp]
  · intro header now hc
    unfold rateLimitWait
    rcases hc with hc | hc
    · rw [if_neg (by simp [hc])]
    · by_cases he : header = ""
      · rw [if_neg (by simp [he])]
      · rw [if_pos he, hc]
  · intro env h1 h2
    unfold doRequest
    exact doRequestLoop_tooFar env maxRateLimitRetries 0 h1 (by decide) h2
  · intro env h1 h2
    unfold doRequest
    rw [doRequestLoop_retry env maxRateLimitRetries 0 h1 (by decide)
      (le_trans (le_of_lt h2) (by decide))]
    dsimp only [List.head?]
    rw [if_pos h2]
  · intro env hs hw
    have h := doRequestLoop_all429 env hs hw (maxRateLimitRetries + 1) 0
      (by omega) (by omega)
    unfold doRequest
    refine ⟨h.1, ?_⟩
    have := h.2
    omega
  · intro env h
    unfold doRequest
    exact doRequestLoop_ok env maxRateLimitRetries 0 h

/-- An environment that always answers 429 with a reset 30 seconds ahead. -/
def c8Env : Nat → Int × HttpResponse :=
  fun _ => (1000, { statusCode := 429, rateLimitResetHeader := "1030", linkHeader := "" })

/-- Witness for claim C8: retries are exhausted after exactly three waits. -/
theorem claim_C8_rate_limit_handling_witness :
    (doRequest c8Env).1 = DoRequestResult.rateLimitedAfterRetries ∧
    (doRequest c8Env).2.length = maxRateLimitRetries :=
  claim_C8_rate_limit_handling.2.2.2.2.1 c8Env (fun _ => rfl)
    (fun i => by simp only [c8Env]; decide)

/-!  ## Link-header pagination (`internal/okta/client.go`, `getNextLink`)  -/

/-- The substring `getNextLink` looks for in each comma-separated part. -/
def relNext : String := "rel=\"next\""

/-- Model of `net/url.Parse` followed by reading `Path` and `RawQuery`, at the
fidelity the pagination targets require: for an absolute URL the authority
(everything from after "://" up to the first '/') is dropped, the fragment
(from the first '#') is cut, and the remainder splits into path and query at
the first '?'.  Parse errors are not modelled — `url.Parse` accepts every
value this loop feeds it. -/
def urlPathQuery (urlPart : String) : String × String :=
  let afterAuthority : List Char :=
    match subFirst ("://".data) urlPart.data with
    | some (_, rest) => rest.dropWhile (fun c => c ≠ '/')
    | none => urlPart.data
  let noFrag := afterAuthority.takeWhile (fun c => c ≠ '#')
  (String.mk (noFrag.takeWhile (fun c => c ≠ '?')),
    String.mk ((noFrag.dropWhile (fun c => c ≠ '?')).drop 1))

/-- The reduction `getNextLink` applies to the part carrying the next
relation: take the segment before the first ';', trim spaces, strip the
angle brackets, and reduce the URL to its path-plus-query form. -/
def linkPartTarget (part : String) : String :=
  let urlPart := strTrimSpace ((strSplit part ';').headD "")
  let urlPart := trimPrefixStr urlPart "<"
  let urlPart := trimSuffixStr urlPart ">"
  let pq := urlPathQuery urlPart
  if pq.2 ≠ "" then pq.1 ++ "?" ++ pq.2 else pq.1

/-- The loop inside `getNextLink` over the comma-separated header parts: the
first part containing `rel="next"` is reduced to its target; no such part
means no next page. -/
def nextFromParts : List String → String
  | [] => ""
  | part :: rest =>
    if strContains part relNext then linkPartTarget part
    else nextFromParts rest

/-- `getNextLink` from `client.go`: empty header means no next page. -/
def getNextLink (linkHeader : String) : String :=
  if linkHeader = "" then ""
  else nextFromParts (strSplit linkHeader ',')

theorem nextFromParts_eq_find (parts : List String) :
    nextFromParts parts =
      (match parts.find? (fun p => strContains p relNext) with
       | none => ""
       | some part => linkPartTarget part) := by
  induction parts with
  | nil => rfl
  | cons part rest ih =>
    by_cases hc : strContains part relNext = true
    · unfold nextFromParts
      rw [if_pos hc, @List.find?_cons_of_pos _ (fun s => strContains s relNext) part rest hc]
    · conv_lhs => unfold nextFromParts
      rw [if_neg hc, @List.find?_cons_of_neg _ (fun s => strContains s relNext) part rest hc,
        ih]

/-- Claim C9: the next-link extractor returns the path-plus-query reduction
of the target of the first comma-separated entry carrying the `next`
relation, and the empty string (ending pagination) when the header is empty
or carries no `next` relation; shown both as the general characterisation and
on concrete Okta-style headers. -/
theorem claim_C9_next_link :
    (∀ header : String,
      getNextLink header =
        (match (strSplit header ',').find? (fun p => strContains p relNext) with
         | none => ""
         | some part => linkPartTarget part)) ∧
    getNextLink "" = "" ∧
    getNextLink "<https://org.okta.com/api/v1/users?after=abc&limit=200>; rel=\"next\", <https://org.okta.com/api/v1/users>; rel=\"self\"" =
      "/api/v1/users?after=abc&limit=200" ∧
    getNextLink "<https://org.okta.com/api/v1/users>; rel=\"self\"" = "" := by
  refine ⟨?_, by decide, by decide, by decide⟩
  intro header
  unfold getNextLink
  split
  · rename_i he
    subst he
    decide
  · exact nextFromParts_eq_find _

end Okta
